import Mathlib

/-!
# Verification of `motion_capture_tracking_node.cpp`

Shallow embedding of the configuration-building code and the frame loop of
`src/motion_capture_tracking_node.cpp`, together with proofs about the
properties stated in the design specification.

Modelling conventions:
* C++ `std::string` keys are modelled as `List Char` (`Str`); all keys in this
  program are ASCII, so byte positions coincide with character positions.
* `double` values are modelled as `ℚ`; every numeric conversion performed by
  the code on the values that reach a `double` (an `int32` to `double`
  conversion) is exact, so rationals are a faithful carrier.
* A `std::set<std::string>` is modelled as a sorted duplicate-free list
  (`insertSorted`), which is exactly the container's contents and its
  iteration order.
* A thrown C++ exception (`std::out_of_range` from `map::at` / `vector::at` /
  `substr`, `rclcpp::ParameterTypeException` from a mistyped `get<T>`) is
  `BuildErr.thrown`: it is uncaught in `main`, so it terminates the process
  before the frame loop.  An out-of-range `operator[]` on a `std::vector` is
  undefined behaviour, modelled as the distinct outcome `BuildErr.ub`.
-/

abbrev Str := List Char

/-- The token the code extracts from a matching key: `substr(start, end-start)`
with `start = pattern.size() + 1` and `end` the position of the next `'.'` at
or after `start` (or the end of the key). -/
def childToken (pattern k : Str) : Str :=
  (k.drop (pattern.length + 1)).takeWhile (· ≠ '.')

/-- Insertion into a `std::set<std::string>`: keeps the list sorted and
duplicate-free. -/
def insertSorted (a : Str) : List Str → List Str
  | [] => [a]
  | b :: l =>
    if a < b then a :: b :: l
    else if a = b then b :: l
    else b :: insertSorted a l

/-- The loop body of `extract_names` (lines 26–34): for each key that has
`pattern` as a prefix (`i.first.find(pattern) == 0`), compute
`start = pattern.size() + 1`; if `start` lies past the key's end,
`substr` throws `std::out_of_range` (modelled as `.error ()`); otherwise
insert the extracted child token into the result set. -/
def extractGo (pattern : Str) : List Str → List Str → Except Unit (List Str)
  | [], acc => .ok acc
  | k :: rest, acc =>
    if pattern.isPrefixOf k then
      if k.length ≤ pattern.length then .error ()
      else extractGo pattern rest (insertSorted (childToken pattern k) acc)
    else extractGo pattern rest acc

/-- `extract_names` (lines 21–36): collect the distinct tokens that follow
`pattern + "."` in the keys of the override map.  The override map itself is
represented by its key list. -/
def extract_names (overrides : List Str) (pattern : Str) : Except Unit (List Str) :=
  extractGo pattern overrides []

/-- An `rclcpp::ParameterValue`, restricted to the four payload kinds this
program reads: strings, doubles, integer arrays (`int64_t`) and double
arrays. -/
inductive ParamValue where
  | pstr (s : Str)
  | pdouble (d : ℚ)
  | pintArr (l : List Int)
  | pdoubleArr (l : List ℚ)
deriving DecidableEq

/-- The parameter-override map, represented as its association list. -/
abbrev Overrides := List (Str × ParamValue)

/-- Startup failure modes.  `thrown` is an uncaught C++ exception
(`std::out_of_range`, `rclcpp::ParameterTypeException`): the process
terminates before the frame loop.  `ub` is undefined behaviour from an
out-of-range `std::vector::operator[]`. -/
inductive BuildErr where
  | thrown
  | ub
deriving DecidableEq

abbrev BuildM (α : Type) := Except BuildErr α

/-- Conversion of an `int64_t` to a 32-bit `int`, as performed by the
range-for binder `for (int v : int_vec)` in `get_vec` (line 43): reduction
modulo `2^32` into `[-2^31, 2^31)`. -/
def wrap32 (v : Int) : Int :=
  (v + 2 ^ 31) % 2 ^ 32 - 2 ^ 31

/-- `get_vec` (lines 38–49): an integer-array parameter is converted
elementwise through `int` to `double` (the `int` → `double` conversion is
exact); any other type is handed to `get<std::vector<double>>()`, which
returns the stored array for a double array and throws otherwise. -/
def get_vec : ParamValue → BuildM (List ℚ)
  | .pintArr l => .ok (l.map fun v => ((wrap32 v : Int) : ℚ))
  | .pdoubleArr l => .ok l
  | _ => .error .thrown

/-- `std::map::at` on the override map: throws `std::out_of_range` when the
key is absent. -/
def atParam (o : Overrides) (k : Str) : BuildM ParamValue :=
  match o.find? (fun kv => kv.1 == k) with
  | some kv => .ok kv.2
  | none => .error .thrown

/-- `.get<std::string>()`: throws unless the stored value is a string. -/
def getString : ParamValue → BuildM Str
  | .pstr s => .ok s
  | _ => .error .thrown

/-- `.get<double>()`: throws unless the stored value is a double. -/
def getDouble : ParamValue → BuildM ℚ
  | .pdouble d => .ok d
  | _ => .error .thrown

/-- `std::vector::at`: checked access, throws `std::out_of_range` when out of
range. -/
def atVec (l : List ℚ) (i : Nat) : BuildM ℚ :=
  if h : i < l.length then .ok (l.get ⟨i, h⟩) else .error .thrown

/-- `std::vector::operator[]`: unchecked access, undefined behaviour when out
of range. -/
def idxVec (l : List ℚ) (i : Nat) : BuildM ℚ :=
  if h : i < l.length then .ok (l.get ⟨i, h⟩) else .error .ub

/-- `std::map<std::string, size_t>::at`: throws when the name is absent. -/
def atIndexMap (m : List (Str × Nat)) (k : Str) : BuildM Nat :=
  match m.find? (fun kv => kv.1 == k) with
  | some kv => .ok kv.2
  | none => .error .thrown

/-- `get_vec(parameter_overrides.at(k))`: fetch a key and normalise it to a
double vector. -/
def readVec (o : Overrides) (k : Str) : BuildM (List ℚ) := do
  get_vec (← atParam o k)

/-- `parameter_overrides.at(k).get<std::string>()`. -/
def readString (o : Overrides) (k : Str) : BuildM Str := do
  getString (← atParam o k)

/-- `parameter_overrides.at(k).get<double>()`. -/
def readDouble (o : Overrides) (k : Str) : BuildM ℚ := do
  getDouble (← atParam o k)

/-- `librigidbodytracker::DynamicsConfiguration` as filled in lines 103–112. -/
structure DynamicsConfiguration where
  maxXVelocity : ℚ
  maxYVelocity : ℚ
  maxZVelocity : ℚ
  maxRollRate : ℚ
  maxPitchRate : ℚ
  maxYawRate : ℚ
  maxRoll : ℚ
  maxPitch : ℚ
  maxFitnessScore : ℚ
deriving DecidableEq

/-- One iteration of the dynamics loop body (lines 102–112). -/
def buildDynamicsOne (o : Overrides) (name : Str) : BuildM DynamicsConfiguration := do
  let max_vel ← readVec o ("dynamics_configurations.".toList ++ name ++ ".max_velocity".toList)
  let vx ← atVec max_vel 0
  let vy ← atVec max_vel 1
  let vz ← atVec max_vel 2
  let max_ang ← readVec o ("dynamics_configurations.".toList ++ name ++ ".max_angular_velocity".toList)
  let wr ← atVec max_ang 0
  let wp ← atVec max_ang 1
  let wy ← atVec max_ang 2
  let mroll ← readDouble o ("dynamics_configurations.".toList ++ name ++ ".max_roll".toList)
  let mpitch ← readDouble o ("dynamics_configurations.".toList ++ name ++ ".max_pitch".toList)
  let mfit ← readDouble o ("dynamics_configurations.".toList ++ name ++ ".max_fitness_score".toList)
  .ok { maxXVelocity := vx, maxYVelocity := vy, maxZVelocity := vz,
        maxRollRate := wr, maxPitchRate := wp, maxYawRate := wy,
        maxRoll := mroll, maxPitch := mpitch, maxFitnessScore := mfit }

/-- The dynamics loop (lines 100–115): builds the configuration vector in
iteration order, records `dynamics_name_to_index[name] = i` and increments
`i`.  Returns the final value of the counter `i` as well, because the code
leaves it in scope. -/
def buildDynamics (o : Overrides) :
    List Str → Nat → BuildM (List DynamicsConfiguration × List (Str × Nat) × Nat)
  | [], i => .ok ([], [], i)
  | name :: rest, i => do
    let c ← buildDynamicsOne o name
    let (cs, m, i') ← buildDynamics o rest (i + 1)
    .ok (c :: cs, (name, i) :: m, i')

abbrev Point3 := ℚ × ℚ × ℚ

/-- The inner loop of the marker-configuration construction (lines 124–131):
for every override whose key has `"marker_configurations.<name>.points"` as a
prefix, read the point (unchecked `operator[]` accesses into `points` and
`offset`) and store declared point + offset, componentwise. -/
def buildMarkerPoints (offset : List ℚ) (pattern : Str) :
    List (Str × ParamValue) → BuildM (List Point3)
  | [] => .ok []
  | (k, v) :: rest =>
    if pattern.isPrefixOf k then do
      let points ← get_vec v
      let p0 ← idxVec points 0
      let p1 ← idxVec points 1
      let p2 ← idxVec points 2
      let o0 ← idxVec offset 0
      let o1 ← idxVec offset 1
      let o2 ← idxVec offset 2
      let ps ← buildMarkerPoints offset pattern rest
      .ok ((p0 + o0, p1 + o1, p2 + o2) :: ps)
    else buildMarkerPoints offset pattern rest

/-- The marker-configuration loop (lines 120–133).  `staleIdx` is the value
of the counter `i` left over from the dynamics loop: the loop never modifies
`i`, so line 132 records `marker_name_to_index[name] = i` with that stale
value for every name. -/
def buildMarkers (o : Overrides) (staleIdx : Nat) :
    List Str → BuildM (List (List Point3) × List (Str × Nat))
  | [] => .ok ([], [])
  | name :: rest => do
    let offset ← readVec o ("marker_configurations.".toList ++ name ++ ".offset".toList)
    let pts ← buildMarkerPoints offset
      ("marker_configurations.".toList ++ name ++ ".points".toList) o
    let (cs, m) ← buildMarkers o staleIdx rest
    .ok (pts :: cs, (name, staleIdx) :: m)

/-- `librigidbodytracker::Object` as constructed at line 145. -/
structure Object where
  markerConfigurationIdx : Nat
  dynamicsConfigurationIdx : Nat
  initialCenter : Point3
  name : Str
deriving DecidableEq

/-- The rigid-body loop (lines 137–146): read `initial_position` (unchecked
accesses), the `marker` and `dynamics` string references, resolve both
through the name→index maps with checked `map::at`, and construct the
object. -/
def buildObjects (o : Overrides) (marker_name_to_index dynamics_name_to_index : List (Str × Nat)) :
    List Str → BuildM (List Object)
  | [] => .ok []
  | name :: rest => do
    let pos ← readVec o ("rigid_bodies.".toList ++ name ++ ".initial_position".toList)
    let p0 ← idxVec pos 0
    let p1 ← idxVec pos 1
    let p2 ← idxVec pos 2
    let marker ← readString o ("rigid_bodies.".toList ++ name ++ ".marker".toList)
    let dynamics ← readString o ("rigid_bodies.".toList ++ name ++ ".dynamics".toList)
    let mi ← atIndexMap marker_name_to_index marker
    let di ← atIndexMap dynamics_name_to_index dynamics
    let rest' ← buildObjects o marker_name_to_index dynamics_name_to_index rest
    .ok ({ markerConfigurationIdx := mi, dynamicsConfigurationIdx := di,
           initialCenter := (p0, p1, p2), name := name } :: rest')

/-- What the tracker is constructed from at lines 148–151. -/
structure Config where
  dynamicsConfigurations : List DynamicsConfiguration
  markerConfigurations : List (List Point3)
  objects : List Object
deriving DecidableEq

/-- An exception escaping `extract_names` is uncaught. -/
def liftNames : Except Unit (List Str) → BuildM (List Str)
  | .ok l => .ok l
  | .error _ => .error .thrown

/-- The configuration-building phase of `main` (lines 97–151), in program
order: dynamics names and profiles, marker names and templates, rigid-body
names and objects. -/
def buildConfiguration (o : Overrides) : BuildM Config := do
  let keys := o.map Prod.fst
  let dynamics_config_names ← liftNames (extract_names keys "dynamics_configurations".toList)
  let (dynamicsConfigurations, dynamics_name_to_index, i) ← buildDynamics o dynamics_config_names 0
  let marker_config_names ← liftNames (extract_names keys "marker_configurations".toList)
  let (markerConfigurations, marker_name_to_index) ← buildMarkers o i marker_config_names
  let rigid_body_names ← liftNames (extract_names keys "rigid_bodies".toList)
  let objects ← buildObjects o marker_name_to_index dynamics_name_to_index rigid_body_names
  .ok { dynamicsConfigurations := dynamicsConfigurations,
        markerConfigurations := markerConfigurations, objects := objects }

/-- `sensor_msgs::msg::PointField`. -/
structure PointField where
  name : Str
  offset : Nat
  datatype : Nat
  count : Nat
deriving DecidableEq

/-- `sensor_msgs::msg::PointField::FLOAT32`. -/
def FLOAT32 : Nat := 7

/-- The published `sensor_msgs::msg::PointCloud2`, reduced to the fields the
code writes.  The payload bytes are float32 bit patterns (outside this
model's scope), so only the byte count `data_len` of `data` is kept. -/
structure PointCloud2 where
  frame_id : Str
  stamp : ℚ
  height : Nat
  width : Nat
  fields : List PointField
  point_step : Nat
  row_step : Nat
  data_len : Nat
  is_bigendian : Bool
  is_dense : Bool
deriving DecidableEq

/-- `msgPointCloud` as initialised once before the loop (lines 69–87);
`stamp`, `width`, `data`, `row_step` start at their message defaults. -/
def msgPointCloudInit : PointCloud2 where
  frame_id := "world".toList
  stamp := 0
  height := 1
  width := 0
  fields := [⟨"x".toList, 0, FLOAT32, 1⟩, ⟨"y".toList, 4, FLOAT32, 1⟩,
             ⟨"z".toList, 8, FLOAT32, 1⟩]
  point_step := 12
  row_step := 0
  data_len := 0
  is_bigendian := false
  is_dense := true

/-- The cloud message as published in a cycle (lines 170–176): stamp := the
cycle's wall-clock sample, width := number of captured points, data resized
to `rows * 3 * 4` bytes, row_step := data size.  All other fields keep their
startup values. -/
def cycleCloudMsg (time : ℚ) (rows : Nat) : PointCloud2 :=
  { msgPointCloudInit with
      stamp := time, width := rows, data_len := rows * 3 * 4, row_step := rows * 3 * 4 }

/-- `geometry_msgs::msg::TransformStamped`, reduced to the fields the code
writes; the quaternion is the tuple (x, y, z, w). -/
structure TransformStamped where
  stamp : ℚ
  frame_id : Str
  child_frame_id : Str
  translation : Point3
  rotation : ℚ × ℚ × ℚ × ℚ
deriving DecidableEq

/-- A rigid body reported by the capture backend
(`mocap->rigidBodies()`): name, position, quaternion (x, y, z, w). -/
structure BackendBody where
  name : Str
  position : Point3
  rotation : ℚ × ℚ × ℚ × ℚ
deriving DecidableEq

/-- One entry of `tracker.objects()` after `tracker.update` — the external
Object Tracker's per-body state for the current cycle.  `translation` and
`rotation` stand for `transformation().translation()` and the quaternion
`Eigen::Quaternionf(transformation().rotation())` of the estimated pose. -/
structure TrackedObject where
  name : Str
  lastTransformationValid : Bool
  translation : Point3
  rotation : ℚ × ℚ × ℚ × ℚ
  lastValidTime : ℚ
deriving DecidableEq

/-- The transform built from a backend-reported pose (lines 200–210). -/
def backendPoseTransform (time : ℚ) (b : BackendBody) : TransformStamped where
  stamp := time
  frame_id := "world".toList
  child_frame_id := b.name
  translation := b.position
  rotation := b.rotation

/-- The transform built from the tracker's estimated pose (lines 217–231). -/
def trackerPoseTransform (time : ℚ) (o : TrackedObject) : TransformStamped where
  stamp := time
  frame_id := "world".toList
  child_frame_id := o.name
  translation := o.translation
  rotation := o.rotation

/-- The staleness warning emitted at lines 235–236:
`elapsedSeconds = chrono_now - rigidBody.lastValidTime()`. -/
structure StaleWarning where
  name : Str
  elapsedSeconds : ℚ
deriving DecidableEq

/-- The merge loop over `tracker.objects()` (lines 213–238): a body with a
valid fit appends one transform built from the estimated pose; an invalid
one appends nothing and emits a staleness warning. -/
def trackerMerge (time chrono_now : ℚ) :
    List TrackedObject → List TransformStamped × List StaleWarning
  | [] => ([], [])
  | o :: rest =>
    let (ts, ws) := trackerMerge time chrono_now rest
    if o.lastTransformationValid then
      (trackerPoseTransform time o :: ts, ws)
    else
      (ts, ⟨o.name, chrono_now - o.lastValidTime⟩ :: ws)

/-- Everything one loop iteration observes from its collaborators:
the captured point rows, the backend's rigid bodies (in map iteration
order), the tracker's object states after `tracker.update`, and the two
per-cycle clock samples (`node->now()` wall clock, `high_resolution_clock`
monotonic). -/
structure FrameInput where
  pointcloud : List Point3
  rigidBodies : List BackendBody
  trackerObjects : List TrackedObject
  time : ℚ
  chrono_now : ℚ
deriving DecidableEq

/-- What one loop iteration publishes.  `cloudMsg` models the unconditional
`pubPointCloud->publish` (line 176); `sentBatch` models the guarded
`tfbroadcaster.sendTransform` (lines 240–242), absent when the batch is
empty. -/
structure CycleOutput where
  cloudMsg : PointCloud2
  transforms : List TransformStamped
  warnings : List StaleWarning
  sentBatch : Option (List TransformStamped)
deriving DecidableEq

/-- One iteration of the frame loop (lines 160–245): publish the cloud, then
build the batch by appending one transform per backend body (lines 194–211)
followed by one per tracker body with a valid fit (lines 213–238), then send
the batch if non-empty. -/
def runCycle (f : FrameInput) : CycleOutput :=
  let merged := trackerMerge f.time f.chrono_now f.trackerObjects
  let transforms := f.rigidBodies.map (backendPoseTransform f.time) ++ merged.1
  { cloudMsg := cycleCloudMsg f.time f.pointcloud.length
    transforms := transforms
    warnings := merged.2
    sentBatch := if transforms.length > 0 then some transforms else none }

/-- `main` after `connect`: build the configuration; on any startup error the
process dies before the frame loop (`none`), otherwise the loop runs.  The
built configuration itself is consumed only by the external Object Tracker's
constructor, so the per-cycle tracker states appear as inputs. -/
def runStartup (o : Overrides) (frames : List FrameInput) : Option (List CycleOutput) :=
  match buildConfiguration o with
  | .ok _ => some (frames.map runCycle)
  | .error _ => none

/-- Spec-side definition, following the specification's words for comparison
with `extract_names`: "the set of distinct immediate child tokens following
`prefix + "."` among all override keys". -/
def childTokensSpec (overrides : List Str) (pattern : Str) : Finset Str :=
  ((overrides.filter fun k => (pattern ++ ['.']).isPrefixOf k).map
    (childToken pattern)).toFinset

/-- The relation between a matched `points` override and a stored template
point: the stored point is the declared point plus the template offset,
componentwise, each component obtained by the code's (unchecked) reads of
the first three entries. -/
def declaredPlusOffset (offset : List ℚ) (kv : Str × ParamValue) (p : Point3) : Prop :=
  ∃ pts a0 a1 a2 b0 b1 b2,
    get_vec kv.2 = .ok pts ∧
    idxVec pts 0 = .ok a0 ∧ idxVec pts 1 = .ok a1 ∧ idxVec pts 2 = .ok a2 ∧
    idxVec offset 0 = .ok b0 ∧ idxVec offset 1 = .ok b1 ∧ idxVec offset 2 = .ok b2 ∧
    p = (a0 + b0, a1 + b1, a2 + b2)

/-! ### Concrete inputs used by the theorems below -/

/-- A minimal well-formed override map: one dynamics configuration `d`, one
marker configuration `m`, one rigid body `cf1` referencing both. -/
def oMinimal : Overrides := [
  ("dynamics_configurations.d.max_velocity".toList, .pdoubleArr [1, 1, 1]),
  ("dynamics_configurations.d.max_angular_velocity".toList, .pdoubleArr [1, 1, 1]),
  ("dynamics_configurations.d.max_roll".toList, .pdouble 1),
  ("dynamics_configurations.d.max_pitch".toList, .pdouble 1),
  ("dynamics_configurations.d.max_fitness_score".toList, .pdouble 1),
  ("marker_configurations.m.offset".toList, .pdoubleArr [0, 0, 0]),
  ("marker_configurations.m.points.0".toList, .pdoubleArr [1, 0, 0]),
  ("rigid_bodies.cf1.initial_position".toList, .pdoubleArr [0, 0, 0]),
  ("rigid_bodies.cf1.marker".toList, .pstr "m".toList),
  ("rigid_bodies.cf1.dynamics".toList, .pstr "d".toList)]

/-- `oMinimal` with the marker configuration's `offset` array empty: the
first point read then evaluates `offset[0]` out of range. -/
def oShortOffset : Overrides := [
  ("dynamics_configurations.d.max_velocity".toList, .pdoubleArr [1, 1, 1]),
  ("dynamics_configurations.d.max_angular_velocity".toList, .pdoubleArr [1, 1, 1]),
  ("dynamics_configurations.d.max_roll".toList, .pdouble 1),
  ("dynamics_configurations.d.max_pitch".toList, .pdouble 1),
  ("dynamics_configurations.d.max_fitness_score".toList, .pdouble 1),
  ("marker_configurations.m.offset".toList, .pdoubleArr []),
  ("marker_configurations.m.points.0".toList, .pdoubleArr [1, 0, 0]),
  ("rigid_bodies.cf1.initial_position".toList, .pdoubleArr [0, 0, 0]),
  ("rigid_bodies.cf1.marker".toList, .pstr "m".toList),
  ("rigid_bodies.cf1.dynamics".toList, .pstr "d".toList)]

/-- A tracker body with a valid fit this cycle. -/
def objValid : TrackedObject :=
  ⟨"a".toList, true, (1, 2, 3), (0, 0, 0, 1), 4⟩

/-- A tracker body with an invalid fit this cycle. -/
def objInvalid : TrackedObject :=
  ⟨"b".toList, false, (5, 6, 7), (0, 0, 0, 1), 2⟩

/-- A concrete frame: one captured point, one backend body, one valid and one
invalid tracker body; wall sample 10, monotonic sample 9. -/
def frameEx : FrameInput where
  pointcloud := [(1, 2, 3)]
  rigidBodies := [⟨"a".toList, (0, 1, 0), (0, 0, 0, 1)⟩]
  trackerObjects := [objValid, objInvalid]
  time := 10
  chrono_now := 9

/-- The `points` overrides of the spec's marker-template example. -/
def oPointsEx : List (Str × ParamValue) :=
  [("marker_configurations.m.points.0".toList, .pdoubleArr [1, 0, 0])]

/-- Example key list: two rigid-body keys and an unrelated key. -/
def oKeysEx : List Str :=
  ["other".toList, "rigid_bodies.cf1.marker".toList, "rigid_bodies.cf2.marker".toList]

/-- `oKeysEx` in a different declaration order. -/
def oKeysExPerm : List Str :=
  ["rigid_bodies.cf2.marker".toList, "other".toList, "rigid_bodies.cf1.marker".toList]

/-! ### Helper lemmas -/

theorem bind_eq_ok {α β : Type} {x : BuildM α} {f : α → BuildM β} {b : β} :
    x >>= f = .ok b ↔ ∃ a, x = .ok a ∧ f a = .ok b := by
  cases x <;> simp [Bind.bind, Except.bind]

/-- The merge loop over tracker objects, characterised: the transforms are
exactly one per valid-fit body, in order, and the warnings are exactly one
per invalid-fit body with `elapsed = chrono_now - lastValidTime`. -/
theorem trackerMerge_eq (time chrono_now : ℚ) (objs : List TrackedObject) :
    trackerMerge time chrono_now objs =
      ((objs.filter (·.lastTransformationValid)).map (trackerPoseTransform time),
        (objs.filter (fun o => !o.lastTransformationValid)).map
          (fun o => ⟨o.name, chrono_now - o.lastValidTime⟩)) := by
  induction objs with
  | nil => rfl
  | cons o rest ih =>
    by_cases h : o.lastTransformationValid <;>
      simp [trackerMerge, h, ih, List.filter_cons]

theorem runCycle_transforms (f : FrameInput) :
    (runCycle f).transforms =
      f.rigidBodies.map (backendPoseTransform f.time) ++
        (f.trackerObjects.filter (·.lastTransformationValid)).map
          (trackerPoseTransform f.time) := by
  simp [runCycle, trackerMerge_eq]

theorem runCycle_warnings (f : FrameInput) :
    (runCycle f).warnings =
      (f.trackerObjects.filter (fun o => !o.lastTransformationValid)).map
        (fun o => ⟨o.name, f.chrono_now - o.lastValidTime⟩) := by
  simp [runCycle, trackerMerge_eq]

theorem runCycle_transforms_drop (f : FrameInput) :
    (runCycle f).transforms.drop f.rigidBodies.length =
      (f.trackerObjects.filter (·.lastTransformationValid)).map
        (trackerPoseTransform f.time) := by
  rw [runCycle_transforms, List.drop_left' (by rw [List.length_map])]

/-- Among the transforms contributed by the tracker loop, a body with a
unique name accounts for exactly one entry when its fit is valid — the
transform of its estimated pose — and none otherwise. -/
theorem tracker_part_filter_name (time : ℚ) (o : TrackedObject) :
    ∀ objs : List TrackedObject, o ∈ objs → (objs.map (·.name)).Nodup →
      ((objs.filter (·.lastTransformationValid)).map (trackerPoseTransform time)).filter
          (fun t => t.child_frame_id == o.name) =
        (if o.lastTransformationValid then [trackerPoseTransform time o] else []) := by
  intro objs
  induction objs with
  | nil => intro h; cases h
  | cons a rest ih =>
    intro ho hnd
    simp only [List.map_cons, List.nodup_cons] at hnd
    obtain ⟨hnotin, hndrest⟩ := hnd
    rcases List.mem_cons.mp ho with rfl | hmem
    · have hrest : ((rest.filter (·.lastTransformationValid)).map
          (trackerPoseTransform time)).filter (fun t => t.child_frame_id == o.name) = [] := by
        rw [List.filter_eq_nil_iff]
        intro t ht
        obtain ⟨x, hx, rfl⟩ := List.mem_map.mp ht
        have hxmem : x.name ∈ rest.map (·.name) :=
          List.mem_map_of_mem _ (List.mem_of_mem_filter hx)
        have hxo : x.name ≠ o.name := fun h => hnotin (h ▸ hxmem)
        simp [trackerPoseTransform, hxo]
      by_cases hv : o.lastTransformationValid
      · simp [List.filter_cons, hv, hrest, trackerPoseTransform]
      · simp [List.filter_cons, hv, hrest]
    · have hao : a.name ≠ o.name := fun h =>
        hnotin (h ▸ List.mem_map_of_mem (·.name) hmem)
      by_cases hv : a.lastTransformationValid
      · simp [List.filter_cons, hv, trackerPoseTransform, hao, ih hmem hndrest]
      · simp [List.filter_cons, hv, ih hmem hndrest]

/-- A key that is exactly the pattern makes the loop body of `extract_names`
reach the error branch, whatever else the map holds. -/
theorem extractGo_error_of_mem (pattern : Str) :
    ∀ l acc : List Str, pattern ∈ l → extractGo pattern l acc = .error () := by
  intro l
  induction l with
  | nil => intro acc h; cases h
  | cons k rest ih =>
    intro acc hmem
    rcases List.mem_cons.mp hmem with rfl | h
    · have hp : pattern.isPrefixOf pattern = true := by
        rw [List.isPrefixOf_iff_prefix]
      simp [extractGo, hp]
    · unfold extractGo
      by_cases hp : pattern.isPrefixOf k
      · by_cases hl : k.length ≤ pattern.length
        · simp [hp, hl]
        · simp [hp, hl, ih _ h]
      · simp [hp, ih _ h]

/-! ### Claim theorems -/

/-- **C1** (code bug): on a well-formed configuration with one dynamics
profile `d`, one marker template `m` and one rigid body `cf1` referencing
both, the built object's dynamics index is 0 (the index of `d`, as the claim
states), but its marker index is 1 — the stale dynamics-loop counter reused
at line 132 — which is not the index of `m` (0) and does not even lie inside
the one-element marker collection. -/
theorem marker_reference_resolves_to_stale_index :
    (buildConfiguration oMinimal).map
        (fun c =>
          (c.objects.map fun x => (x.markerConfigurationIdx, x.dynamicsConfigurationIdx),
            c.markerConfigurations.length, c.dynamicsConfigurations.length))
      = .ok ([(1, 0)], 1, 1) := rfl

/-- **C3** (code bug): `get_vec` on the integer array `[4294967296]`
(`2^32`, a representable `int64_t`) returns `[0]`, because line 43 narrows
each element through a 32-bit `int`; the claim says elements keep their
value, and `2^32 ≠ 0`. -/
theorem get_vec_narrows_large_int64 :
    get_vec (.pintArr [4294967296]) = .ok [(0 : ℚ)] ∧
      ((4294967296 : Int) : ℚ) ≠ (0 : ℚ) := by
  constructor
  · have h : get_vec (.pintArr [4294967296])
        = .ok [((wrap32 4294967296 : Int) : ℚ)] := rfl
    rw [h]; norm_num [wrap32]
  · norm_num

/-- **C5**: both per-cycle messages carry the cycle's single wall-clock
sample: the cloud message's stamp and the stamp of every transform in the
cycle's batch equal `f.time`. -/
theorem cycle_outputs_share_single_stamp (f : FrameInput) :
    (runCycle f).cloudMsg.stamp = f.time ∧
      ∀ t ∈ (runCycle f).transforms, t.stamp = f.time := by
  refine ⟨rfl, ?_⟩
  intro t ht
  rw [runCycle_transforms] at ht
  rcases List.mem_append.mp ht with h | h
  · obtain ⟨b, _, rfl⟩ := List.mem_map.mp h
    rfl
  · obtain ⟨o, _, rfl⟩ := List.mem_map.mp h
    rfl

/-- **C6**: the cloud message of every cycle (including `N = 0` — the
message is part of every cycle's output, unconditionally) has width `N`,
a data payload of `width * 12` bytes, float32 fields x, y, z at byte
offsets 0, 4, 8, a 12-byte point stride, height 1 and frame id
`"world"`. -/
theorem cloud_message_layout (f : FrameInput) :
    (runCycle f).cloudMsg = cycleCloudMsg f.time f.pointcloud.length ∧
      (runCycle f).cloudMsg.width = f.pointcloud.length ∧
      (runCycle f).cloudMsg.data_len = (runCycle f).cloudMsg.width * 12 ∧
      (runCycle f).cloudMsg.fields =
        [⟨"x".toList, 0, FLOAT32, 1⟩, ⟨"y".toList, 4, FLOAT32, 1⟩,
          ⟨"z".toList, 8, FLOAT32, 1⟩] ∧
      (runCycle f).cloudMsg.point_step = 12 ∧
      (runCycle f).cloudMsg.height = 1 ∧
      (runCycle f).cloudMsg.frame_id = "world".toList := by
  refine ⟨rfl, rfl, ?_, rfl, rfl, rfl, rfl⟩
  show f.pointcloud.length * 3 * 4 = f.pointcloud.length * 12
  omega

/-- **C10**: the cycle's batch is the backend-derived transforms followed by
the tracker-derived ones: the first `|rigidBodies|` entries are exactly the
backend transforms and the remainder exactly the transforms of the
valid-fit tracker bodies, so every backend entry precedes every tracker
entry. -/
theorem transform_batch_backend_before_tracker (f : FrameInput) :
    (runCycle f).transforms =
      f.rigidBodies.map (backendPoseTransform f.time) ++
        (f.trackerObjects.filter (·.lastTransformationValid)).map
          (trackerPoseTransform f.time) ∧
      (runCycle f).transforms.take f.rigidBodies.length =
        f.rigidBodies.map (backendPoseTransform f.time) ∧
      (runCycle f).transforms.drop f.rigidBodies.length =
        (f.trackerObjects.filter (·.lastTransformationValid)).map
          (trackerPoseTransform f.time) := by
  have h := runCycle_transforms f
  refine ⟨h, ?_, ?_⟩ <;> rw [h]
  · rw [List.take_left' (by rw [List.length_map])]
  · rw [List.drop_left' (by rw [List.length_map])]

/-- **C4**: per cycle, the warnings are exactly one per invalid-fit tracker
body, with elapsed time `chrono_now - lastValidTime` (monotonic sample minus
the body's last-valid timestamp), and — bodies having distinct names — the
tracker-contributed part of the batch holds exactly one transform for each
valid-fit body, the transform of its estimated pose, and none for an
invalid-fit body. -/
theorem tracker_valid_one_transform_invalid_warning (f : FrameInput)
    (hnd : (f.trackerObjects.map (·.name)).Nodup) :
    (runCycle f).warnings =
      (f.trackerObjects.filter (fun o => !o.lastTransformationValid)).map
        (fun o => ⟨o.name, f.chrono_now - o.lastValidTime⟩) ∧
      ∀ o ∈ f.trackerObjects,
        ((runCycle f).transforms.drop f.rigidBodies.length).filter
            (fun t => t.child_frame_id == o.name) =
          (if o.lastTransformationValid then [trackerPoseTransform f.time o] else []) := by
  refine ⟨runCycle_warnings f, ?_⟩
  intro o ho
  rw [runCycle_transforms_drop]
  exact tracker_part_filter_name f.time o f.trackerObjects ho hnd

/-- Witness for **C4** at the concrete frame `frameEx` (one valid body `a`,
one invalid body `b`). -/
theorem tracker_valid_one_transform_invalid_warning_witness :
    (runCycle frameEx).warnings =
      (frameEx.trackerObjects.filter (fun o => !o.lastTransformationValid)).map
        (fun o => ⟨o.name, frameEx.chrono_now - o.lastValidTime⟩) ∧
      ∀ o ∈ frameEx.trackerObjects,
        ((runCycle frameEx).transforms.drop frameEx.rigidBodies.length).filter
            (fun t => t.child_frame_id == o.name) =
          (if o.lastTransformationValid then [trackerPoseTransform frameEx.time o]
            else []) :=
  tracker_valid_one_transform_invalid_warning frameEx (by decide)

/-- **C9**: an override map holding a key exactly equal to the pattern drives
`extract_names` into its error branch (the token start index
`pattern.size() + 1` lies past the key's end, so `substr` throws): the key is
not ignored, the extraction fails. -/
theorem pattern_key_reaches_error (overrides : List Str) (pattern : Str)
    (h : pattern ∈ overrides) :
    extract_names overrides pattern = .error () :=
  extractGo_error_of_mem pattern overrides [] h

/-- Witness for **C9**: the map whose only key is `"rigid_bodies"` with
pattern `"rigid_bodies"`. -/
theorem pattern_key_reaches_error_witness :
    "rigid_bodies".toList ∈ ["rigid_bodies".toList] ∧
      extract_names ["rigid_bodies".toList] "rigid_bodies".toList = .error () :=
  ⟨by decide, pattern_key_reaches_error _ _ (by decide)⟩

/-- **C8**: whenever the marker-template point loop succeeds, the stored
points correspond one-to-one, in order, to the matched `points.<idx>`
overrides, and each stored point is the declared point plus the
configuration's offset, componentwise. -/
theorem marker_points_are_declared_plus_offset (offset : List ℚ) (pattern : Str) :
    ∀ (o : List (Str × ParamValue)) (res : List Point3),
      buildMarkerPoints offset pattern o = .ok res →
      List.Forall₂ (declaredPlusOffset offset)
        (o.filter fun kv => pattern.isPrefixOf kv.1) res := by
  intro o
  induction o with
  | nil =>
    intro res h
    obtain rfl : ([] : List Point3) = res := by simpa [buildMarkerPoints] using h
    simp
  | cons kv rest ih =>
    obtain ⟨k, v⟩ := kv
    intro res h
    simp only [buildMarkerPoints] at h
    by_cases hp : pattern.isPrefixOf k
    · rw [if_pos hp] at h
      rw [bind_eq_ok] at h; obtain ⟨pts, hpts, h⟩ := h
      rw [bind_eq_ok] at h; obtain ⟨a0, ha0, h⟩ := h
      rw [bind_eq_ok] at h; obtain ⟨a1, ha1, h⟩ := h
      rw [bind_eq_ok] at h; obtain ⟨a2, ha2, h⟩ := h
      rw [bind_eq_ok] at h; obtain ⟨b0, hb0, h⟩ := h
      rw [bind_eq_ok] at h; obtain ⟨b1, hb1, h⟩ := h
      rw [bind_eq_ok] at h; obtain ⟨b2, hb2, h⟩ := h
      rw [bind_eq_ok] at h; obtain ⟨tail, htail, h⟩ := h
      injection h with h
      subst h
      rw [List.filter_cons, if_pos (by simpa using hp)]
      exact List.Forall₂.cons
        ⟨pts, a0, a1, a2, b0, b1, b2, hpts, ha0, ha1, ha2, hb0, hb1, hb2, rfl⟩
        (ih _ htail)
    · rw [if_neg hp] at h
      rw [List.filter_cons, if_neg (by simpa using hp)]
      exact ih _ h

/-- Witness for **C8**: the spec's example — offset `[0,0,1]`, declared point
`points.0 = [1,0,0]` — stores the single template point `(1, 0, 1)`. -/
theorem marker_points_are_declared_plus_offset_witness :
    buildMarkerPoints [0, 0, 1] "marker_configurations.m.points".toList oPointsEx
      = .ok [(1, 0, 1)] ∧
    List.Forall₂ (declaredPlusOffset [0, 0, 1])
      (oPointsEx.filter fun kv => ("marker_configurations.m.points".toList).isPrefixOf kv.1)
      [(1, 0, 1)] := by
  have h : buildMarkerPoints [0, 0, 1] "marker_configurations.m.points".toList oPointsEx
      = .ok [((1 : ℚ) + 0, (0 : ℚ) + 0, (0 : ℚ) + 1)] := rfl
  have h2 : buildMarkerPoints [0, 0, 1] "marker_configurations.m.points".toList oPointsEx
      = .ok [(1, 0, 1)] := by rw [h]; norm_num
  exact ⟨h2, marker_points_are_declared_plus_offset _ _ _ _ h2⟩

theorem mem_insertSorted (a x : Str) : ∀ l, x ∈ insertSorted a l ↔ x = a ∨ x ∈ l := by
  intro l
  induction l with
  | nil => simp [insertSorted]
  | cons b t ih =>
    by_cases h1 : a < b
    · simp [insertSorted, h1]
    · by_cases h2 : a = b
      · subst h2
        rw [insertSorted, if_neg h1, if_pos rfl]
        simp only [List.mem_cons]
        tauto
      · simp only [insertSorted, if_neg h1, if_neg h2, List.mem_cons, ih]
        tauto

theorem sorted_insertSorted (a : Str) :
    ∀ l, l.Sorted (· < ·) → (insertSorted a l).Sorted (· < ·) := by
  intro l
  induction l with
  | nil => intro _; simp [insertSorted]
  | cons b t ih =>
    intro hs
    rw [List.sorted_cons] at hs
    obtain ⟨hb, ht⟩ := hs
    by_cases h1 : a < b
    · rw [insertSorted, if_pos h1, List.sorted_cons]
      refine ⟨?_, by rw [List.sorted_cons]; exact ⟨hb, ht⟩⟩
      intro c hc
      rcases List.mem_cons.mp hc with rfl | hc'
      · exact h1
      · exact h1.trans (hb c hc')
    · by_cases h2 : a = b
      · subst h2
        rw [insertSorted, if_neg h1, if_pos rfl, List.sorted_cons]
        exact ⟨hb, ht⟩
      · rw [insertSorted, if_neg h1, if_neg h2, List.sorted_cons]
        refine ⟨?_, ih ht⟩
        intro c hc
        rcases (mem_insertSorted a c t).mp hc with rfl | hc'
        · rcases lt_trichotomy c b with h | h | h
          · exact absurd h h1
          · exact absurd h h2
          · exact h
        · exact hb c hc'

/-- When every key carrying the pattern as a prefix is strictly longer than
the pattern, the extraction loop succeeds and returns a sorted list whose
members are the accumulated set plus one child token per matching key. -/
theorem extractGo_ok_spec (pattern : Str) :
    ∀ l acc : List Str,
      (∀ k ∈ l, pattern.isPrefixOf k = true → pattern.length < k.length) →
      ∃ s, extractGo pattern l acc = .ok s ∧
        (∀ x, x ∈ s ↔ x ∈ acc ∨
          ∃ k ∈ l, pattern.isPrefixOf k = true ∧ childToken pattern k = x) ∧
        (acc.Sorted (· < ·) → s.Sorted (· < ·)) := by
  intro l
  induction l with
  | nil =>
    intro acc _
    exact ⟨acc, rfl, by simp, id⟩
  | cons k rest ih =>
    intro acc hlen
    by_cases hp : pattern.isPrefixOf k
    · have hk : ¬ k.length ≤ pattern.length := by
        have := hlen k (by simp) hp
        omega
      obtain ⟨s, hs, hmem, hsort⟩ :=
        ih (insertSorted (childToken pattern k) acc)
          (fun k' hk' => hlen k' (by simp [hk']))
      refine ⟨s, ?_, ?_, ?_⟩
      · rw [extractGo, if_pos hp, if_neg hk]
        exact hs
      · intro x
        rw [hmem x, mem_insertSorted]
        simp only [List.mem_cons]
        constructor
        · rintro ((rfl | hx) | ⟨k', hk', hp', ht'⟩)
          · exact Or.inr ⟨k, Or.inl rfl, hp, rfl⟩
          · exact Or.inl hx
          · exact Or.inr ⟨k', Or.inr hk', hp', ht'⟩
        · rintro (hx | ⟨k', (rfl | hk'), hp', ht'⟩)
          · exact Or.inl (Or.inr hx)
          · exact Or.inl (Or.inl ht'.symm)
          · exact Or.inr ⟨k', hk', hp', ht'⟩
      · intro hacc
        exact hsort (sorted_insertSorted _ _ hacc)
    · obtain ⟨s, hs, hmem, hsort⟩ := ih acc (fun k' hk' => hlen k' (by simp [hk']))
      refine ⟨s, ?_, ?_, hsort⟩
      · rw [extractGo, if_neg hp]
        exact hs
      · intro x
        rw [hmem x]
        simp only [List.mem_cons]
        constructor
        · rintro (hx | ⟨k', hk', hp', ht'⟩)
          · exact Or.inl hx
          · exact Or.inr ⟨k', Or.inr hk', hp', ht'⟩
        · rintro (hx | ⟨k', (rfl | hk'), hp', ht'⟩)
          · exact Or.inl hx
          · exact absurd hp' hp
          · exact Or.inr ⟨k', hk', hp', ht'⟩

/-- **C2** counterexample: the key `"rigid_bodiesX.cf1.marker"` begins with
the pattern `"rigid_bodies"` but not with `"rigid_bodies."`.  The claim says
such an unrelated key is ignored; instead `extract_names` extracts the empty
token from it (`substr` lands on the dot after `X`), whereas the set of
immediate child tokens of keys beginning with `"rigid_bodies."` is empty. -/
theorem extract_names_bare_prefix_key_not_ignored :
    extract_names ["rigid_bodiesX.cf1.marker".toList] "rigid_bodies".toList
        = .ok [[]] ∧
      childTokensSpec ["rigid_bodiesX.cf1.marker".toList] "rigid_bodies".toList = ∅ ∧
      ([[]] : List Str) ≠ [] := by
  refine ⟨rfl, by decide, by simp⟩

/-- **C2** (amended): provided every key that begins with the pattern in fact
continues with a dot (its prefix is `pattern + "."`), `extract_names`
succeeds, returns exactly the set of distinct immediate child tokens of keys
beginning with `pattern + "."`, and returns the identical list for any
reordering of the override map. -/
theorem extract_names_spec_on_dotted_keys (overrides overrides₂ : List Str) (pattern : Str)
    (hdot : ∀ k ∈ overrides, pattern.isPrefixOf k = true →
      (pattern ++ ['.']).isPrefixOf k = true)
    (hperm : overrides₂.Perm overrides) :
    ∃ s, extract_names overrides pattern = .ok s ∧
      extract_names overrides₂ pattern = .ok s ∧
      s.toFinset = childTokensSpec overrides pattern := by
  have hlen : ∀ k ∈ overrides, pattern.isPrefixOf k = true → pattern.length < k.length := by
    intro k hk hp
    have hd := List.isPrefixOf_iff_prefix.mp (hdot k hk hp)
    have hle := hd.length_le
    simp only [List.length_append, List.length_cons, List.length_nil] at hle
    omega
  have hlen₂ : ∀ k ∈ overrides₂, pattern.isPrefixOf k = true → pattern.length < k.length :=
    fun k hk => hlen k (hperm.subset hk)
  obtain ⟨s, hs, hmem, hsort⟩ := extractGo_ok_spec pattern overrides [] hlen
  obtain ⟨s₂, hs₂, hmem₂, hsort₂⟩ := extractGo_ok_spec pattern overrides₂ [] hlen₂
  have hsorted : s.Sorted (· < ·) := hsort (by simp)
  have hsorted₂ : s₂.Sorted (· < ·) := hsort₂ (by simp)
  have hnd : s.Nodup := hsorted.imp ne_of_lt
  have hnd₂ : s₂.Nodup := hsorted₂.imp ne_of_lt
  have hmemeq : ∀ x, x ∈ s₂ ↔ x ∈ s := by
    intro x
    rw [hmem x, hmem₂ x]
    simp only [List.not_mem_nil, false_or]
    constructor
    · rintro ⟨k, hk, h1, h2⟩
      exact ⟨k, hperm.subset hk, h1, h2⟩
    · rintro ⟨k, hk, h1, h2⟩
      exact ⟨k, hperm.mem_iff.mpr hk, h1, h2⟩
  haveI : IsAntisymm Str (· < ·) := ⟨fun a b h1 h2 => absurd h2 (lt_asymm h1)⟩
  have hperm' : s₂.Perm s := (List.perm_ext_iff_of_nodup hnd₂ hnd).mpr hmemeq
  have heq : s₂ = s := List.eq_of_perm_of_sorted hperm' hsorted₂ hsorted
  refine ⟨s, hs, heq ▸ hs₂, ?_⟩
  ext x
  rw [List.mem_toFinset, hmem x]
  simp only [List.not_mem_nil, false_or]
  unfold childTokensSpec
  rw [List.mem_toFinset]
  simp only [List.mem_map, List.mem_filter]
  constructor
  · rintro ⟨k, hk, h1, h2⟩
    exact ⟨k, ⟨hk, hdot k hk h1⟩, h2⟩
  · rintro ⟨k, ⟨hk, hd⟩, h2⟩
    refine ⟨k, hk, ?_, h2⟩
    have h3 := List.isPrefixOf_iff_prefix.mp hd
    exact List.isPrefixOf_iff_prefix.mpr ((List.prefix_append pattern ['.']).trans h3)

/-- Witness for **C2**: the two rigid-body keys plus an unrelated key, in two
different orders. -/
theorem extract_names_spec_on_dotted_keys_witness :
    ∃ s, extract_names oKeysEx "rigid_bodies".toList = .ok s ∧
      extract_names oKeysExPerm "rigid_bodies".toList = .ok s ∧
      s.toFinset = childTokensSpec oKeysEx "rigid_bodies".toList :=
  extract_names_spec_on_dotted_keys oKeysEx oKeysExPerm "rigid_bodies".toList
    (by decide) (by decide)

theorem atVec_ok_lt {l : List ℚ} {i : Nat} {q : ℚ} (h : atVec l i = .ok q) :
    i < l.length := by
  by_cases hi : i < l.length
  · exact hi
  · rw [atVec, dif_neg hi] at h
    cases h

theorem idxVec_ok_lt {l : List ℚ} {i : Nat} {q : ℚ} (h : idxVec l i = .ok q) :
    i < l.length := by
  by_cases hi : i < l.length
  · exact hi
  · rw [idxVec, dif_neg hi] at h
    cases h

theorem atIndexMap_ok_mem {m : List (Str × Nat)} {k : Str} {i : Nat}
    (h : atIndexMap m k = .ok i) : ∃ kv ∈ m, kv.1 = k := by
  rw [atIndexMap] at h
  cases hf : m.find? (fun kv => kv.1 == k) with
  | none => rw [hf] at h; cases h
  | some kv =>
    refine ⟨kv, List.mem_of_find?_eq_some hf, ?_⟩
    have := List.find?_some hf
    simpa using this

/-- Success of one dynamics iteration forces every required key present with
the right type and both arrays at least three elements long (the code reads
them with checked `vector::at`). -/
theorem buildDynamicsOne_ok_props (o : Overrides) (name : Str) (c : DynamicsConfiguration)
    (h : buildDynamicsOne o name = .ok c) :
    (∃ l, readVec o ("dynamics_configurations.".toList ++ name ++ ".max_velocity".toList)
        = .ok l ∧ 3 ≤ l.length) ∧
    (∃ l, readVec o ("dynamics_configurations.".toList ++ name ++ ".max_angular_velocity".toList)
        = .ok l ∧ 3 ≤ l.length) ∧
    (∃ q, readDouble o ("dynamics_configurations.".toList ++ name ++ ".max_roll".toList)
        = .ok q) ∧
    (∃ q, readDouble o ("dynamics_configurations.".toList ++ name ++ ".max_pitch".toList)
        = .ok q) ∧
    (∃ q, readDouble o ("dynamics_configurations.".toList ++ name ++ ".max_fitness_score".toList)
        = .ok q) := by
  rw [buildDynamicsOne] at h
  rw [bind_eq_ok] at h; obtain ⟨vel, hvel, h⟩ := h
  rw [bind_eq_ok] at h; obtain ⟨vx, hvx, h⟩ := h
  rw [bind_eq_ok] at h; obtain ⟨vy, hvy, h⟩ := h
  rw [bind_eq_ok] at h; obtain ⟨vz, hvz, h⟩ := h
  rw [bind_eq_ok] at h; obtain ⟨ang, hang, h⟩ := h
  rw [bind_eq_ok] at h; obtain ⟨wr, hwr, h⟩ := h
  rw [bind_eq_ok] at h; obtain ⟨wp, hwp, h⟩ := h
  rw [bind_eq_ok] at h; obtain ⟨wy, hwy, h⟩ := h
  rw [bind_eq_ok] at h; obtain ⟨mroll, hmroll, h⟩ := h
  rw [bind_eq_ok] at h; obtain ⟨mpitch, hmpitch, h⟩ := h
  refine ⟨⟨vel, hvel, ?_⟩, ⟨ang, hang, ?_⟩, ⟨mroll, hmroll⟩, ⟨mpitch, hmpitch⟩, ?_⟩
  · have := atVec_ok_lt hvz
    omega
  · have := atVec_ok_lt hwy
    omega
  · rw [bind_eq_ok] at h
    obtain ⟨mfit, hmfit, _⟩ := h
    exact ⟨mfit, hmfit⟩

/-- Success of the dynamics loop forces success of every iteration, and the
name→index map it builds holds exactly the processed names as keys. -/
theorem buildDynamics_ok_props (o : Overrides) :
    ∀ (names : List Str) (i : Nat) (r : List DynamicsConfiguration × List (Str × Nat) × Nat),
      buildDynamics o names i = .ok r →
      (∀ name ∈ names, ∃ c, buildDynamicsOne o name = .ok c) ∧
      (∀ x, (∃ kv ∈ r.2.1, kv.1 = x) ↔ x ∈ names) := by
  intro names
  induction names with
  | nil =>
    intro i r h
    rw [buildDynamics] at h
    injection h with h
    subst h
    simp
  | cons n rest ih =>
    intro i r h
    rw [buildDynamics] at h
    rw [bind_eq_ok] at h; obtain ⟨c, hc, h⟩ := h
    rw [bind_eq_ok] at h; obtain ⟨r', hr', h⟩ := h
    obtain ⟨cs, m, i'⟩ := r'
    injection h with h
    subst h
    obtain ⟨hone, hkeys⟩ := ih _ _ hr'
    constructor
    · intro name hn
      rcases List.mem_cons.mp hn with rfl | hmem
      · exact ⟨c, hc⟩
      · exact hone name hmem
    · intro x
      simp only [List.mem_cons]
      constructor
      · rintro ⟨kv, hkv, rfl⟩
        rcases hkv with rfl | hkv'
        · exact Or.inl rfl
        · exact Or.inr ((hkeys kv.1).mp ⟨kv, hkv', rfl⟩)
      · rintro (rfl | hx)
        · exact ⟨(x, i), Or.inl rfl, rfl⟩
        · obtain ⟨kv, hkv, hk1⟩ := (hkeys x).mpr hx
          exact ⟨kv, Or.inr hkv, hk1⟩

/-- Success of the marker loop forces every offset key present with the
right type, and its name→index map holds exactly the processed names as
keys. -/
theorem buildMarkers_ok_props (o : Overrides) (staleIdx : Nat) :
    ∀ (names : List Str) (r : List (List Point3) × List (Str × Nat)),
      buildMarkers o staleIdx names = .ok r →
      (∀ name ∈ names,
        ∃ l, readVec o ("marker_configurations.".toList ++ name ++ ".offset".toList) = .ok l) ∧
      (∀ x, (∃ kv ∈ r.2, kv.1 = x) ↔ x ∈ names) := by
  intro names
  induction names with
  | nil =>
    intro r h
    rw [buildMarkers] at h
    injection h with h
    subst h
    simp
  | cons n rest ih =>
    intro r h
    rw [buildMarkers] at h
    rw [bind_eq_ok] at h; obtain ⟨offset, hoff, h⟩ := h
    rw [bind_eq_ok] at h; obtain ⟨pts, hpts, h⟩ := h
    rw [bind_eq_ok] at h; obtain ⟨r', hr', h⟩ := h
    obtain ⟨cs, m⟩ := r'
    injection h with h
    subst h
    obtain ⟨hoffs, hkeys⟩ := ih _ hr'
    constructor
    · intro name hn
      rcases List.mem_cons.mp hn with rfl | hmem
      · exact ⟨offset, hoff⟩
      · exact hoffs name hmem
    · intro x
      simp only [List.mem_cons]
      constructor
      · rintro ⟨kv, hkv, rfl⟩
        rcases hkv with rfl | hkv'
        · exact Or.inl rfl
        · exact Or.inr ((hkeys kv.1).mp ⟨kv, hkv', rfl⟩)
      · rintro (rfl | hx)
        · exact ⟨(x, staleIdx), Or.inl rfl, rfl⟩
        · obtain ⟨kv, hkv, hk1⟩ := (hkeys x).mpr hx
          exact ⟨kv, Or.inr hkv, hk1⟩

/-- Success of the rigid-body loop forces, for every body: a well-typed
`initial_position` array of at least three elements, and `marker` and
`dynamics` string references that resolve in the respective name→index
maps. -/
theorem buildObjects_ok_props (o : Overrides) (mm dm : List (Str × Nat)) :
    ∀ (names : List Str) (objs : List Object),
      buildObjects o mm dm names = .ok objs →
      ∀ name ∈ names,
        (∃ l, readVec o ("rigid_bodies.".toList ++ name ++ ".initial_position".toList)
            = .ok l ∧ 3 ≤ l.length) ∧
        (∃ mk, readString o ("rigid_bodies.".toList ++ name ++ ".marker".toList)
            = .ok mk ∧ ∃ kv ∈ mm, kv.1 = mk) ∧
        (∃ dy, readString o ("rigid_bodies.".toList ++ name ++ ".dynamics".toList)
            = .ok dy ∧ ∃ kv ∈ dm, kv.1 = dy) := by
  intro names
  induction names with
  | nil => intro objs h name hn; cases hn
  | cons n rest ih =>
    intro objs h name hn
    rw [buildObjects] at h
    rw [bind_eq_ok] at h; obtain ⟨pos, hpos, h⟩ := h
    rw [bind_eq_ok] at h; obtain ⟨p0, hp0, h⟩ := h
    rw [bind_eq_ok] at h; obtain ⟨p1, hp1, h⟩ := h
    rw [bind_eq_ok] at h; obtain ⟨p2, hp2, h⟩ := h
    rw [bind_eq_ok] at h; obtain ⟨mk, hmk, h⟩ := h
    rw [bind_eq_ok] at h; obtain ⟨dy, hdy, h⟩ := h
    rw [bind_eq_ok] at h; obtain ⟨mi, hmi, h⟩ := h
    rw [bind_eq_ok] at h; obtain ⟨di, hdi, h⟩ := h
    rcases List.mem_cons.mp hn with rfl | hmem
    · refine ⟨⟨pos, hpos, ?_⟩, ⟨mk, hmk, atIndexMap_ok_mem hmi⟩,
        ⟨dy, hdy, atIndexMap_ok_mem hdi⟩⟩
      have := idxVec_ok_lt hp2
      omega
    · rw [bind_eq_ok] at h
      obtain ⟨tail, htail, _⟩ := h
      exact ih _ htail name hmem

theorem liftNames_ok {e : Except Unit (List Str)} {l : List Str}
    (h : liftNames e = .ok l) : e = .ok l := by
  cases e with
  | ok l' =>
    injection h with h
    rw [h]
  | error u => cases h

/-- **C7** counterexample: a marker configuration whose `offset` array is
empty while a `points` entry exists.  The build reads `offset[0]` with
unchecked `operator[]` (line 129) — undefined behaviour, not the thrown
exception ("abort") the claim promises for a malformed numeric array. -/
theorem short_marker_offset_is_undefined_not_thrown :
    buildConfiguration oShortOffset = .error .ub ∧
      BuildErr.ub ≠ BuildErr.thrown :=
  ⟨rfl, by decide⟩

/-- **C7** (amended): if the frame loop is entered at all, the configuration
build succeeded, and then no checked-read startup error was present: every
required dynamics key existed with the right type and both dynamics arrays
had at least 3 elements; every marker `offset` key existed with the right
type; and every rigid body had a well-formed `initial_position` and `marker`
and `dynamics` references that resolve among the extracted marker and
dynamics names.  (Contrapositive: any such configuration error prevents the
loop — for checked reads via a thrown exception; short marker/position
arrays, read unchecked, are undefined behaviour rather than a guaranteed
abort, as the counterexample shows.) -/
theorem startup_errors_prevent_frame_loop (o : Overrides) (frames : List FrameInput)
    (outs : List CycleOutput) (hrun : runStartup o frames = some outs) :
    ∃ (cfg : Config) (dnames mnames rnames : List Str),
      buildConfiguration o = .ok cfg ∧
      extract_names (o.map Prod.fst) "dynamics_configurations".toList = .ok dnames ∧
      extract_names (o.map Prod.fst) "marker_configurations".toList = .ok mnames ∧
      extract_names (o.map Prod.fst) "rigid_bodies".toList = .ok rnames ∧
      (∀ name ∈ dnames,
        (∃ l, readVec o ("dynamics_configurations.".toList ++ name ++ ".max_velocity".toList)
            = .ok l ∧ 3 ≤ l.length) ∧
        (∃ l, readVec o
            ("dynamics_configurations.".toList ++ name ++ ".max_angular_velocity".toList)
            = .ok l ∧ 3 ≤ l.length) ∧
        (∃ q, readDouble o ("dynamics_configurations.".toList ++ name ++ ".max_roll".toList)
            = .ok q) ∧
        (∃ q, readDouble o ("dynamics_configurations.".toList ++ name ++ ".max_pitch".toList)
            = .ok q) ∧
        (∃ q, readDouble o
            ("dynamics_configurations.".toList ++ name ++ ".max_fitness_score".toList)
            = .ok q)) ∧
      (∀ name ∈ mnames,
        ∃ l, readVec o ("marker_configurations.".toList ++ name ++ ".offset".toList)
          = .ok l) ∧
      (∀ name ∈ rnames,
        (∃ l, readVec o ("rigid_bodies.".toList ++ name ++ ".initial_position".toList)
            = .ok l ∧ 3 ≤ l.length) ∧
        (∃ mk, readString o ("rigid_bodies.".toList ++ name ++ ".marker".toList)
            = .ok mk ∧ mk ∈ mnames) ∧
        (∃ dy, readString o ("rigid_bodies.".toList ++ name ++ ".dynamics".toList)
            = .ok dy ∧ dy ∈ dnames)) := by
  rw [runStartup] at hrun
  cases hb0 : buildConfiguration o with
  | error e =>
    rw [hb0] at hrun
    cases hrun
  | ok cfg =>
    have hb := hb0
    rw [buildConfiguration] at hb
    rw [bind_eq_ok] at hb; obtain ⟨dnames, hdn, hb⟩ := hb
    rw [bind_eq_ok] at hb; obtain ⟨rdyn, hdyn, hb⟩ := hb
    obtain ⟨dcs, dm, i⟩ := rdyn
    rw [bind_eq_ok] at hb; obtain ⟨mnames, hmn, hb⟩ := hb
    rw [bind_eq_ok] at hb; obtain ⟨rmk, hmk, hb⟩ := hb
    obtain ⟨mcs, mm⟩ := rmk
    rw [bind_eq_ok] at hb; obtain ⟨rnames, hrn, hb⟩ := hb
    rw [bind_eq_ok] at hb; obtain ⟨objs, hobjs, hb⟩ := hb
    obtain ⟨hdyn1, hdynkeys⟩ := buildDynamics_ok_props o dnames 0 (dcs, dm, i) hdyn
    obtain ⟨hmoff, hmkeys⟩ := buildMarkers_ok_props o i mnames (mcs, mm) hmk
    refine ⟨cfg, dnames, mnames, rnames, rfl,
      liftNames_ok hdn, liftNames_ok hmn, liftNames_ok hrn, ?_, hmoff, ?_⟩
    · intro name hn
      obtain ⟨c, hc⟩ := hdyn1 name hn
      exact buildDynamicsOne_ok_props o name c hc
    · intro name hn
      obtain ⟨hpos, ⟨mk, hmkread, hmkres⟩, ⟨dy, hdyread, hdyres⟩⟩ :=
        buildObjects_ok_props o mm dm rnames objs hobjs name hn
      exact ⟨hpos, ⟨mk, hmkread, (hmkeys mk).mp hmkres⟩,
        ⟨dy, hdyread, (hdynkeys dy).mp hdyres⟩⟩

/-- Witness for **C7** at the minimal well-formed configuration: the loop is
entered (with no frames) and all checked-read facts hold. -/
theorem startup_errors_prevent_frame_loop_witness :
    ∃ (cfg : Config) (dnames mnames rnames : List Str),
      buildConfiguration oMinimal = .ok cfg ∧
      extract_names (oMinimal.map Prod.fst) "dynamics_configurations".toList
        = .ok dnames ∧
      extract_names (oMinimal.map Prod.fst) "marker_configurations".toList
        = .ok mnames ∧
      extract_names (oMinimal.map Prod.fst) "rigid_bodies".toList = .ok rnames ∧
      (∀ name ∈ dnames,
        (∃ l, readVec oMinimal
            ("dynamics_configurations.".toList ++ name ++ ".max_velocity".toList)
            = .ok l ∧ 3 ≤ l.length) ∧
        (∃ l, readVec oMinimal
            ("dynamics_configurations.".toList ++ name ++ ".max_angular_velocity".toList)
            = .ok l ∧ 3 ≤ l.length) ∧
        (∃ q, readDouble oMinimal
            ("dynamics_configurations.".toList ++ name ++ ".max_roll".toList) = .ok q) ∧
        (∃ q, readDouble oMinimal
            ("dynamics_configurations.".toList ++ name ++ ".max_pitch".toList) = .ok q) ∧
        (∃ q, readDouble oMinimal
            ("dynamics_configurations.".toList ++ name ++ ".max_fitness_score".toList)
            = .ok q)) ∧
      (∀ name ∈ mnames,
        ∃ l, readVec oMinimal
          ("marker_configurations.".toList ++ name ++ ".offset".toList) = .ok l) ∧
      (∀ name ∈ rnames,
        (∃ l, readVec oMinimal
            ("rigid_bodies.".toList ++ name ++ ".initial_position".toList)
            = .ok l ∧ 3 ≤ l.length) ∧
        (∃ mk, readString oMinimal ("rigid_bodies.".toList ++ name ++ ".marker".toList)
            = .ok mk ∧ mk ∈ mnames) ∧
        (∃ dy, readString oMinimal ("rigid_bodies.".toList ++ name ++ ".dynamics".toList)
            = .ok dy ∧ dy ∈ dnames)) :=
  startup_errors_prevent_frame_loop oMinimal [] [] rfl
